import Mathlib

/-!
Verification of the `xsd` module of the kapa-xsd repository: a set of
query helpers over parsed XSD (XML Schema) DOM trees.

The DOM is shallowly embedded: an `Element` carries its namespace URI,
local name, attributes (plain and namespaced), the in-scope namespace
prefix declarations at the node, and the ordered list of child elements.
A `Document` wraps its root element (`documentElement`).  The six
functions of the module are translated from the source: `findElement`,
`findTypeDefinition`, `getTypeFromNodeAttr`, `getRestrictedType`,
`findRestrictingFacets` and `parseMinMaxOccurs`.

JavaScript numbers produced by `parseInt`/`Infinity` are modelled by
`JSNum` (an integer, NaN, or the positive-infinity sentinel); a JS
exception (the `TypeError` thrown by `findRestrictingFacets` when no
`restriction` child exists) is modelled by `Option.none`.
-/

set_option autoImplicit false

/--
A DOM element.  `nsDecls` models the in-scope namespace declarations at
the node, i.e. the effective prefix-to-URI map that the DOM method
`lookupNamespaceURI` consults at this node's document position (in a real
DOM tree these accumulate from the node and its ancestors; the model
stores the resulting in-scope map on each node).  `attrs` are the
non-namespaced attributes (name, value); `attrsNS` the namespaced ones
(namespace, name, value).
-/
inductive Element : Type where
  | mk : (namespaceURI : Option String) → (localName : String) →
      (attrs : List (String × String)) →
      (attrsNS : List (String × String × String)) →
      (nsDecls : List (String × String)) →
      (children : List Element) → Element

def Element.namespaceURI : Element → Option String
  | .mk ns _ _ _ _ _ => ns

def Element.localName : Element → String
  | .mk _ ln _ _ _ _ => ln

def Element.attrs : Element → List (String × String)
  | .mk _ _ a _ _ _ => a

def Element.attrsNS : Element → List (String × String × String)
  | .mk _ _ _ a _ _ => a

def Element.nsDecls : Element → List (String × String)
  | .mk _ _ _ _ d _ => d

def Element.children : Element → List Element
  | .mk _ _ _ _ _ cs => cs

/-- DOM `getAttribute`: the value of the named (non-namespaced)
attribute, or `none` (JS `null`) when the attribute is absent. -/
def Element.getAttribute (e : Element) (name : String) : Option String :=
  (e.attrs.find? (fun p => p.1 == name)).map Prod.snd

/-- DOM `getAttributeNS`: the value of the attribute with the given
namespace and local name, or `none` when absent. -/
def Element.getAttributeNS (e : Element) (ns name : String) : Option String :=
  (e.attrsNS.find? (fun p => p.1 == ns && p.2.1 == name)).map (fun p => p.2.2)

/-- DOM `lookupNamespaceURI`: resolve a namespace prefix against the
in-scope declarations at this node; `none` (JS `null`) when unbound. -/
def Element.lookupNamespaceURI (e : Element) (pfx : String) : Option String :=
  (e.nsDecls.find? (fun p => p.1 == pfx)).map Prod.snd

/-- A DOM document, reduced to its root element. -/
structure Document : Type where
  documentElement : Element

mutual
/-- Pre-order (document-order) list of an element and all its
descendants, as traversed by `querySelectorAll`. -/
def Element.descendantsSelf : Element → List Element
  | .mk ns ln a ans d cs => .mk ns ln a ans d cs :: descendantsList cs
/-- Pre-order traversal of a forest of sibling elements. -/
def descendantsList : List Element → List Element
  | [] => []
  | c :: cs => c.descendantsSelf ++ descendantsList cs
end

/-- JS `String.prototype.split` with a single-character separator,
computed on the character list: returns the first segment and the list
of remaining segments (so the full split is `seg :: rest`). -/
def splitChar (sep : Char) : List Char → List Char × List (List Char)
  | [] => ([], [])
  | c :: cs =>
    let r := splitChar sep cs
    if c = sep then ([], r.1 :: r.2) else (c :: r.1, r.2)

/-- JS `value.split(':')` as a list of strings (never empty). -/
def splitOnColon (s : String) : List String :=
  let r := splitChar ':' s.data
  (r.1 :: r.2).map String.mk

/-- A JavaScript number as produced by this module: `parseInt` yields an
integer or NaN, and `maxOccurs="unbounded"` yields `Infinity`. -/
inductive JSNum : Type where
  | nan : JSNum
  | int : Int → JSNum
  | inf : JSNum
deriving DecidableEq

/-- The characters JS `parseInt` skips before parsing (the ASCII
whitespace and line terminators). -/
def isJSWhitespace (c : Char) : Bool :=
  c == ' ' || c == '\t' || c == '\n' || c == '\r' ||
    c == '\x0b' || c == '\x0c'

/-- The digit-consuming tail of JS `parseInt` at radix 10: take the
longest prefix of decimal digits; NaN if there is none, otherwise the
signed value (trailing garbage is ignored). -/
def parseDigits (neg : Bool) (cs : List Char) : JSNum :=
  let ds := cs.takeWhile Char.isDigit
  if ds.isEmpty then .nan
  else
    let v : Nat := ds.foldl (fun a c => a * 10 + (c.toNat - '0'.toNat)) 0
    .int (if neg then -(v : Int) else (v : Int))

/-- JS `parseInt(s, 10)`: skip leading whitespace, read an optional
sign, then the longest prefix of decimal digits; NaN when no digit
follows. -/
def parseIntJS (s : String) : JSNum :=
  match s.data.dropWhile isJSWhitespace with
  | '-' :: rest => parseDigits true rest
  | '+' :: rest => parseDigits false rest
  | cs => parseDigits false cs

/-- The resolved type reference returned by `getTypeFromNodeAttr`:
`namespaceURI` is `null` when the prefix is unbound, `name` is
`undefined` when the attribute value has no `:`. -/
structure TypeReference : Type where
  namespaceURI : Option String
  name : Option String
deriving DecidableEq

/-- The `{ min, max }` record returned by `parseMinMaxOccurs`. -/
structure OccursRange : Type where
  min : JSNum
  max : JSNum
deriving DecidableEq

namespace xsd

/-- The XML Schema namespace URI (member `xs` of the module). -/
def xs : String := "http://www.w3.org/2001/XMLSchema"

/-- The XML Schema Instance namespace URI (member `xsi` of the module). -/
def xsi : String := "http://www.w3.org/2001/XMLSchema-instance"

/-- The predicate of `findElement`'s underscore `find` callback:
`child.namespaceURI === xsd.xs && child.localName === 'element' &&
child.getAttribute('name') === name` (a JS `===` against a string is
true only when `getAttribute` returned a string, never for `null`). -/
def isNamedElement (name : String) (child : Element) : Bool :=
  child.namespaceURI == some xs && child.localName == "element" &&
    child.getAttribute "name" == some name

/-- `xsd.findElement`: first direct child of the document's root element
that is an `xs:element` with the given `name` attribute (`_.find`
returns the first match or `undefined`, modelled by `Option`). -/
def findElement (doc : Document) (name : String) : Option Element :=
  doc.documentElement.children.find? (isNamedElement name)

/-- Whether an element matches the selector string
`'complexType[name="t"],simpleType[name="t"]'` that `findTypeDefinition`
builds.  CSS type selectors carry no namespace here, so they match the
LOCAL name in ANY namespace; the attribute selector matches the
non-namespaced `name` attribute.  (Modelled for type names free of CSS
string metacharacters such as `"` and `\`.) -/
def typeDefSelectorMatches (t : String) (e : Element) : Bool :=
  (e.localName == "complexType" || e.localName == "simpleType") &&
    e.getAttribute "name" == some t

/-- `xsd.findTypeDefinition`: `doc.querySelectorAll(selector)` returns
every matching element of the document in document order. -/
def findTypeDefinition (doc : Document) (type : String) : List Element :=
  doc.documentElement.descendantsSelf.filter (typeDefSelectorMatches type)

/-- The attribute read at the top of `getTypeFromNodeAttr`:
`typeAttrNS ? node.getAttributeNS(typeAttrNS, typeAttr)
            : node.getAttribute(typeAttr)`
(a JS optional string parameter is truthy only when present and
non-empty). -/
def readTypeAttr (node : Element) (typeAttr : String)
    (typeAttrNS : Option String) : Option String :=
  match typeAttrNS with
  | some ns => if ns = "" then node.getAttribute typeAttr
               else node.getAttributeNS ns typeAttr
  | none => node.getAttribute typeAttr

/-- `xsd.getTypeFromNodeAttr`: read the attribute; when truthy (present
and non-empty), split on `:` and return
`{ namespaceURI: node.lookupNamespaceURI(parts[0]), name: parts[1] }`;
otherwise `null`.  Note `parts[1]` is the SECOND split segment, and is
`undefined` (here `none`) when the value has no `:`. -/
def getTypeFromNodeAttr (node : Element) (typeAttr : String)
    (typeAttrNS : Option String) : Option TypeReference :=
  match readTypeAttr node typeAttr typeAttrNS with
  | none => none
  | some v =>
    if v = "" then none
    else
      let parts := splitOnColon v
      some ⟨node.lookupNamespaceURI (parts.headD ""), parts[1]?⟩

/-- The predicate both `getRestrictedType` and `findRestrictingFacets`
use to find the `restriction` child. -/
def isRestriction (child : Element) : Bool :=
  child.namespaceURI == some xs && child.localName == "restriction"

/-- `xsd.getRestrictedType`: find the first `xs:restriction` child; if
present resolve its `base` attribute via `getTypeFromNodeAttr`,
otherwise `null`. -/
def getRestrictedType (node : Element) : Option TypeReference :=
  match node.children.find? isRestriction with
  | some e => getTypeFromNodeAttr e "base" none
  | none => none

/-- `xsd.findRestrictingFacets`: find the first `xs:restriction` child
and return its children.  When there is no such child the JS code
evaluates `undefined.children` and throws a `TypeError`; the thrown
state is modelled by `none`. -/
def findRestrictingFacets (node : Element) : Option (List Element) :=
  (node.children.find? isRestriction).map Element.children

/-- `xsd.parseMinMaxOccurs`: `minOccurs` absent or empty defaults to 1,
otherwise `parseInt(min, 10)`; `maxOccurs` absent or empty defaults to
1, the literal `'unbounded'` gives `Infinity`, otherwise
`parseInt(max, 10)`. -/
def parseMinMaxOccurs (xsdNode : Element) : OccursRange :=
  let minv : JSNum :=
    match xsdNode.getAttribute "minOccurs" with
    | none => .int 1
    | some s => if s = "" then .int 1 else parseIntJS s
  let maxv : JSNum :=
    match xsdNode.getAttribute "maxOccurs" with
    | none => .int 1
    | some s =>
      if s = "" then .int 1
      else if s = "unbounded" then .inf
      else parseIntJS s
  ⟨minv, maxv⟩

end xsd

section Helpers

/-- A successful `find?` splits the list into a prefix of non-matches,
the found element, and a suffix. -/
theorem find_eq_some_split {α : Type} (p : α → Bool) :
    ∀ (l : List α) (e : α), l.find? p = some e →
      ∃ pre post, l = pre ++ e :: post ∧ p e = true ∧ ∀ c ∈ pre, p c = false := by
  intro l
  induction l with
  | nil => intro e h; cases h
  | cons a l ih =>
    intro e h
    by_cases hpa : p a = true
    · rw [List.find?_cons_of_pos _ hpa] at h
      obtain rfl : a = e := by injection h
      exact ⟨[], l, rfl, hpa, by simp⟩
    · rw [List.find?_cons_of_neg _ hpa] at h
      obtain ⟨pre, post, rfl, hpe, hpre⟩ := ih e h
      refine ⟨a :: pre, post, rfl, hpe, ?_⟩
      intro c hc
      rcases List.mem_cons.mp hc with rfl | hc
      · exact Bool.eq_false_iff.mpr hpa
      · exact hpre c hc

/-- Conversely, `find?` returns the element after a prefix of
non-matches. -/
theorem find_eq_some_of_split {α : Type} (p : α → Bool) (e : α) (post : List α)
    (hpe : p e = true) :
    ∀ pre : List α, (∀ c ∈ pre, p c = false) →
      (pre ++ e :: post).find? p = some e := by
  intro pre
  induction pre with
  | nil => intro _; simpa using List.find?_cons_of_pos post hpe
  | cons a pre ih =>
    intro hpre
    rw [List.cons_append, List.find?_cons_of_neg]
    · exact ih fun c hc => hpre c (List.mem_cons_of_mem a hc)
    · simp [hpre a (List.mem_cons_self a pre)]

/-- The `findElement` callback as a proposition. -/
theorem isNamedElement_eq_true (name : String) (c : Element) :
    xsd.isNamedElement name c = true ↔
      (c.namespaceURI = some xsd.xs ∧ c.localName = "element" ∧
        c.getAttribute "name" = some name) := by
  simp [xsd.isNamedElement, Bool.and_eq_true, and_assoc]

/-- The `restriction`-child callback as a proposition. -/
theorem isRestriction_eq_true (c : Element) :
    xsd.isRestriction c = true ↔
      (c.namespaceURI = some xsd.xs ∧ c.localName = "restriction") := by
  simp [xsd.isRestriction, Bool.and_eq_true]

/-- The type-definition selector as a proposition. -/
theorem typeDefSelectorMatches_eq_true (t : String) (e : Element) :
    xsd.typeDefSelectorMatches t e = true ↔
      ((e.localName = "complexType" ∨ e.localName = "simpleType") ∧
        e.getAttribute "name" = some t) := by
  simp [xsd.typeDefSelectorMatches, Bool.and_eq_true, Bool.or_eq_true]

/-- The first segment of a character split is the longest prefix free of
the separator. -/
theorem splitChar_fst (sep : Char) :
    ∀ cs : List Char, (splitChar sep cs).1 = cs.takeWhile (fun c => c != sep) := by
  intro cs
  induction cs with
  | nil => rfl
  | cons c cs ih =>
    by_cases h : c = sep <;> simp [splitChar, List.takeWhile_cons, h, ih]

/-- Splitting a separator-free list yields the list itself as the only
segment. -/
theorem splitChar_of_no_sep (sep : Char) :
    ∀ cs : List Char, cs.all (fun c => c != sep) = true →
      splitChar sep cs = (cs, []) := by
  intro cs
  induction cs with
  | nil => intro _; rfl
  | cons c cs ih =>
    intro h
    rw [List.all_cons, Bool.and_eq_true] at h
    have hc : ¬(c = sep) := by simpa using h.1
    simp [splitChar, hc, ih h.2]

/-- The first split segment of a string is everything before the first
`:`. -/
theorem splitOnColon_headD (v : String) :
    (splitOnColon v).head?.getD "" =
      String.mk (v.data.takeWhile (fun c => c != ':')) := by
  simp [splitOnColon, splitChar_fst]

/-- A colon-free string splits into itself alone. -/
theorem splitOnColon_of_no_colon (v : String)
    (h : v.data.all (fun c => c != ':') = true) : splitOnColon v = [v] := by
  simp [splitOnColon, splitChar_of_no_sep ':' v.data h]

end Helpers

section OccursClaims

/-- Concrete node with `minOccurs="0" maxOccurs="5"`. -/
def occursNode05 : Element :=
  .mk (some xsd.xs) "element" [("minOccurs", "0"), ("maxOccurs", "5")] [] [] []

/-- Concrete node with neither occurrence attribute. -/
def occursNodeBare : Element := .mk (some xsd.xs) "element" [] [] [] []

/-- Concrete node with `maxOccurs="unbounded"`. -/
def occursNodeUnbounded : Element :=
  .mk (some xsd.xs) "element" [("maxOccurs", "unbounded")] [] [] []

/-- C1: `parseMinMaxOccurs` returns `{ min, max }` with min = 1 when
`minOccurs` is absent or empty and otherwise the base-10 `parseInt` of
the attribute; and max = 1 when `maxOccurs` is absent or empty, the
positive-infinity sentinel when it is exactly `"unbounded"`, and
otherwise the base-10 `parseInt` of the attribute. -/
theorem parseMinMaxOccurs_spec (n : Element) :
    ((n.getAttribute "minOccurs" = none ∨ n.getAttribute "minOccurs" = some "") →
      (xsd.parseMinMaxOccurs n).min = .int 1) ∧
    (∀ s, n.getAttribute "minOccurs" = some s → s ≠ "" →
      (xsd.parseMinMaxOccurs n).min = parseIntJS s) ∧
    ((n.getAttribute "maxOccurs" = none ∨ n.getAttribute "maxOccurs" = some "") →
      (xsd.parseMinMaxOccurs n).max = .int 1) ∧
    (n.getAttribute "maxOccurs" = some "unbounded" →
      (xsd.parseMinMaxOccurs n).max = .inf) ∧
    (∀ s, n.getAttribute "maxOccurs" = some s → s ≠ "" → s ≠ "unbounded" →
      (xsd.parseMinMaxOccurs n).max = parseIntJS s) := by
  refine ⟨?_, ?_, ?_, ?_, ?_⟩
  · rintro (h | h) <;> simp [xsd.parseMinMaxOccurs, h]
  · intro s hs hne; simp [xsd.parseMinMaxOccurs, hs, hne]
  · rintro (h | h) <;> simp [xsd.parseMinMaxOccurs, h]
  · intro h; simp [xsd.parseMinMaxOccurs, h]
  · intro s hs hne hnu; simp [xsd.parseMinMaxOccurs, hs, hne, hnu]

/-- Witness for C1 at concrete nodes: explicit attributes parse with
`parseInt`, missing ones default to 1, `"unbounded"` gives the
infinity sentinel. -/
theorem parseMinMaxOccurs_spec_witness :
    (xsd.parseMinMaxOccurs occursNode05).min = parseIntJS "0" ∧
    (xsd.parseMinMaxOccurs occursNode05).max = parseIntJS "5" ∧
    (xsd.parseMinMaxOccurs occursNodeBare).min = JSNum.int 1 ∧
    (xsd.parseMinMaxOccurs occursNodeBare).max = JSNum.int 1 ∧
    (xsd.parseMinMaxOccurs occursNodeUnbounded).max = JSNum.inf :=
  ⟨(parseMinMaxOccurs_spec occursNode05).2.1 "0" rfl (by decide),
   (parseMinMaxOccurs_spec occursNode05).2.2.2.2 "5" rfl (by decide) (by decide),
   (parseMinMaxOccurs_spec occursNodeBare).1 (Or.inl rfl),
   (parseMinMaxOccurs_spec occursNodeBare).2.2.1 (Or.inl rfl),
   (parseMinMaxOccurs_spec occursNodeUnbounded).2.2.2.1 rfl⟩

/-- Concrete node whose `minOccurs` text is not a valid integer but has
a parsable digit prefix. -/
def occursNodeGarbage : Element :=
  .mk (some xsd.xs) "element" [("minOccurs", "12ab")] [] [] []

/-- Counterexample to C8: `minOccurs="12ab"` is not a valid integer,
yet `parseMinMaxOccurs` yields `min = 12` (JS `parseInt` stops at the
first non-digit), not a not-a-number value. -/
theorem parseMinMaxOccurs_nan_counterexample :
    occursNodeGarbage.getAttribute "minOccurs" = some "12ab" ∧
    (xsd.parseMinMaxOccurs occursNodeGarbage).min = JSNum.int 12 ∧
    JSNum.int 12 ≠ JSNum.nan := ⟨rfl, by decide, by decide⟩

/-- C8 as amended: when the attribute text yields NO digits under JS
base-10 integer parsing (so `parseInt` returns NaN; for `maxOccurs`
also not empty and not `"unbounded"`), `parseMinMaxOccurs` still
returns a record — the total function raises nothing — and the
corresponding field is the not-a-number value. -/
theorem parseMinMaxOccurs_nan (n : Element) :
    (∀ s, n.getAttribute "minOccurs" = some s → s ≠ "" → parseIntJS s = .nan →
      (xsd.parseMinMaxOccurs n).min = .nan) ∧
    (∀ s, n.getAttribute "maxOccurs" = some s → s ≠ "" → s ≠ "unbounded" →
      parseIntJS s = .nan → (xsd.parseMinMaxOccurs n).max = .nan) := by
  constructor
  · intro s hs hne hnan
    simp [xsd.parseMinMaxOccurs, hs, hne, hnan]
  · intro s hs hne hnu hnan
    simp [xsd.parseMinMaxOccurs, hs, hne, hnu, hnan]

/-- Concrete node with digit-free malformed occurrence attributes. -/
def occursNodeMalformed : Element :=
  .mk (some xsd.xs) "element" [("minOccurs", "abc"), ("maxOccurs", "x2")] [] [] []

/-- Witness for the amended C8: digit-free attribute texts give NaN in
both fields. -/
theorem parseMinMaxOccurs_nan_witness :
    (xsd.parseMinMaxOccurs occursNodeMalformed).min = JSNum.nan ∧
    (xsd.parseMinMaxOccurs occursNodeMalformed).max = JSNum.nan :=
  ⟨(parseMinMaxOccurs_nan occursNodeMalformed).1 "abc" rfl (by decide) (by decide),
   (parseMinMaxOccurs_nan occursNodeMalformed).2 "x2" rfl (by decide) (by decide)
     (by decide)⟩

end OccursClaims

section TypeAttrClaims

/-- Concrete node whose `type` attribute holds two colons. -/
def typeNodeTwoColons : Element :=
  .mk (some xsd.xs) "element" [("type", "a:b:c")] [] [("a", "urn:a")] []

/-- Counterexample to C2: on `type="a:b:c"` the code returns name `"b"`
(the SECOND `split(':')` segment), not `"b:c"` (everything after the
first `:`). -/
theorem getTypeFromNodeAttr_counterexample :
    typeNodeTwoColons.getAttribute "type" = some "a:b:c" ∧
    xsd.getTypeFromNodeAttr typeNodeTwoColons "type" none =
      some ⟨some "urn:a", some "b"⟩ ∧
    xsd.getTypeFromNodeAttr typeNodeTwoColons "type" none ≠
      some ⟨some "urn:a", some "b:c"⟩ :=
  ⟨rfl, by decide, by decide⟩

/-- C2 as amended: `getTypeFromNodeAttr` returns null when the attribute
(read from the optional attribute namespace when one is given) is absent
or empty; otherwise it returns `{ namespaceURI, name }` where
`namespaceURI` resolves the part of the value before the first `:` as a
prefix at that node, and `name` is the SECOND `':'`-split segment of the
value (the text between the first and second `:`, absent when the value
has no `:`). -/
theorem getTypeFromNodeAttr_spec (node : Element) (typeAttr : String)
    (typeAttrNS : Option String) :
    (xsd.readTypeAttr node typeAttr typeAttrNS = none →
      xsd.getTypeFromNodeAttr node typeAttr typeAttrNS = none) ∧
    (xsd.readTypeAttr node typeAttr typeAttrNS = some "" →
      xsd.getTypeFromNodeAttr node typeAttr typeAttrNS = none) ∧
    (∀ v, xsd.readTypeAttr node typeAttr typeAttrNS = some v → v ≠ "" →
      xsd.getTypeFromNodeAttr node typeAttr typeAttrNS =
        some ⟨node.lookupNamespaceURI
                (String.mk (v.data.takeWhile (fun c => c != ':'))),
              (splitOnColon v)[1]?⟩) := by
  refine ⟨?_, ?_, ?_⟩
  · intro h; simp [xsd.getTypeFromNodeAttr, h]
  · intro h; simp [xsd.getTypeFromNodeAttr, h]
  · intro v hv hne
    simp [xsd.getTypeFromNodeAttr, hv, hne, splitOnColon_headD]

/-- Concrete node carrying `type="xs:string"` with `xs` bound to the
XML Schema namespace. -/
def typeNodeXsString : Element :=
  .mk (some xsd.xs) "element" [("type", "xs:string")] []
    [("xs", "http://www.w3.org/2001/XMLSchema")] []

/-- Witness for the amended C2: `type="xs:string"` resolves to the XML
Schema namespace with name `string`. -/
theorem getTypeFromNodeAttr_spec_witness :
    xsd.getTypeFromNodeAttr typeNodeXsString "type" none =
      some ⟨some "http://www.w3.org/2001/XMLSchema", some "string"⟩ :=
  ((getTypeFromNodeAttr_spec typeNodeXsString "type" none).2.2 "xs:string" rfl
    (by decide)).trans (by decide)

/-- Concrete node whose `type` attribute is present but empty. -/
def typeNodeEmpty : Element :=
  .mk (some xsd.xs) "element" [("type", "")] [] [("a", "urn:a")] []

/-- Counterexample to C7: the empty attribute value contains no `:`,
yet `getTypeFromNodeAttr` returns null, not a TypeReference with an
absent name. -/
theorem noColon_counterexample :
    typeNodeEmpty.getAttribute "type" = some "" ∧
    String.data "" = [] ∧
    xsd.getTypeFromNodeAttr typeNodeEmpty "type" none = none :=
  ⟨rfl, rfl, by decide⟩

/-- C7 as amended: when the attribute is present with a NON-EMPTY value
containing no `:`, `getTypeFromNodeAttr` returns a TypeReference whose
name is absent and whose namespaceURI resolves the entire value as a
prefix at that node. -/
theorem getTypeFromNodeAttr_noColon (node : Element) (typeAttr v : String)
    (hv : node.getAttribute typeAttr = some v) (hne : v ≠ "")
    (hnc : v.data.all (fun c => c != ':') = true) :
    xsd.getTypeFromNodeAttr node typeAttr none =
      some ⟨node.lookupNamespaceURI v, none⟩ := by
  simp [xsd.getTypeFromNodeAttr, xsd.readTypeAttr, hv, hne,
    splitOnColon_of_no_colon v hnc]

/-- Concrete node carrying a colon-free `type` value. -/
def typeNodeBarePrefix : Element :=
  .mk (some xsd.xs) "element" [("type", "string")] [] [("xs", "urn:x")] []

/-- Witness for the amended C7: `type="string"` yields an absent name
and the (unbound, hence null) resolution of `string` as a prefix. -/
theorem getTypeFromNodeAttr_noColon_witness :
    xsd.getTypeFromNodeAttr typeNodeBarePrefix "type" none =
      some ⟨none, none⟩ :=
  (getTypeFromNodeAttr_noColon typeNodeBarePrefix "type" "string" rfl
    (by decide) (by decide)).trans (by decide)

end TypeAttrClaims

section FindElementClaim

/-- C3: `findElement` scans only the DIRECT children of the document's
root element, returning the first one (in document order) that is an
`xs:element` with the given `name` attribute — so any match is a direct
child (a nested `xs:element` is never returned) preceded only by
non-matching children — and returns the absent result exactly when no
direct child matches. -/
theorem findElement_spec (doc : Document) (name : String) :
    (∀ e, xsd.findElement doc name = some e →
      e ∈ doc.documentElement.children ∧
      e.namespaceURI = some xsd.xs ∧ e.localName = "element" ∧
      e.getAttribute "name" = some name ∧
      ∃ pre post, doc.documentElement.children = pre ++ e :: post ∧
        ∀ c ∈ pre, ¬(c.namespaceURI = some xsd.xs ∧ c.localName = "element" ∧
          c.getAttribute "name" = some name)) ∧
    (xsd.findElement doc name = none ↔
      ∀ c ∈ doc.documentElement.children,
        ¬(c.namespaceURI = some xsd.xs ∧ c.localName = "element" ∧
          c.getAttribute "name" = some name)) := by
  constructor
  · intro e h
    obtain ⟨pre, post, hsplit, hpe, hpre⟩ :=
      find_eq_some_split (xsd.isNamedElement name) _ e h
    have hmem : e ∈ doc.documentElement.children := by
      rw [hsplit]; exact List.mem_append_right pre (List.mem_cons_self e post)
    obtain ⟨h1, h2, h3⟩ := (isNamedElement_eq_true name e).mp hpe
    refine ⟨hmem, h1, h2, h3, pre, post, hsplit, ?_⟩
    intro c hc hcontra
    have := (isNamedElement_eq_true name c).mpr hcontra
    rw [hpre c hc] at this
    cases this
  · rw [xsd.findElement, List.find?_eq_none]
    constructor
    · intro h c hc hcontra
      exact h c hc ((isNamedElement_eq_true name c).mpr hcontra)
    · intro h c hc hel
      exact h c hc ((isNamedElement_eq_true name c).mp hel)

/-- A nested `xs:element` named `person`, hidden inside a complexType. -/
def nestedPersonElement : Element :=
  .mk (some xsd.xs) "element" [("name", "person")] [] [] []

/-- A complexType wrapping `nestedPersonElement`. -/
def wrapperComplexType : Element :=
  .mk (some xsd.xs) "complexType" [("name", "personType")] [] []
    [nestedPersonElement]

/-- A direct root-level `xs:element` named `person`. -/
def directPersonElement : Element :=
  .mk (some xsd.xs) "element" [("name", "person")] [] [] []

/-- A schema document whose root has the complexType first and the
direct element declaration second. -/
def personDocument : Document :=
  ⟨.mk (some xsd.xs) "schema" [] [] []
    [wrapperComplexType, directPersonElement]⟩

/-- Witness for C3: on the concrete document the returned element is a
direct child of the root with the matching attributes. -/
theorem findElement_spec_witness :
    directPersonElement ∈ personDocument.documentElement.children ∧
    directPersonElement.namespaceURI = some xsd.xs ∧
    directPersonElement.localName = "element" ∧
    directPersonElement.getAttribute "name" = some "person" :=
  ⟨((findElement_spec personDocument "person").1 directPersonElement rfl).1,
   ((findElement_spec personDocument "person").1 directPersonElement rfl).2.1,
   ((findElement_spec personDocument "person").1 directPersonElement rfl).2.2.1,
   ((findElement_spec personDocument "person").1 directPersonElement rfl).2.2.2.1⟩

end FindElementClaim

section FindTypeDefinitionClaim

/-- A `complexType` named `T` living in a NON-XSD namespace. -/
def foreignComplexType : Element :=
  .mk (some "urn:other") "complexType" [("name", "T")] [] [] []

/-- A document whose only type-like element is `foreignComplexType`. -/
def foreignDocument : Document :=
  ⟨.mk (some xsd.xs) "schema" [] [] [] [foreignComplexType]⟩

/-- Counterexample to C4: the selector matches by LOCAL name in any
namespace, so a `complexType` outside the XML Schema namespace is
returned, contradicting "exactly the elements ... in the XML Schema
namespace". -/
theorem findTypeDefinition_counterexample :
    xsd.findTypeDefinition foreignDocument "T" = [foreignComplexType] ∧
    foreignComplexType.namespaceURI = some "urn:other" ∧
    some "urn:other" ≠ some xsd.xs :=
  ⟨rfl, rfl, by decide⟩

/-- C4 as amended: `findTypeDefinition` returns exactly the elements of
the document whose LOCAL name is `complexType` or `simpleType` —
REGARDLESS of their namespace — and whose `name` attribute equals the
given type name, as the document-order (pre-order) filtering of the
whole tree: zero, one, or several results, duplicates included. -/
theorem findTypeDefinition_spec (d : Document) (t : String) :
    (∀ e, e ∈ xsd.findTypeDefinition d t ↔
      (e ∈ d.documentElement.descendantsSelf ∧
        (e.localName = "complexType" ∨ e.localName = "simpleType") ∧
        e.getAttribute "name" = some t)) ∧
    (xsd.findTypeDefinition d t).Sublist d.documentElement.descendantsSelf ∧
    xsd.findTypeDefinition d t =
      d.documentElement.descendantsSelf.filter (xsd.typeDefSelectorMatches t) := by
  refine ⟨?_, List.filter_sublist _, rfl⟩
  intro e
  rw [xsd.findTypeDefinition, List.mem_filter, typeDefSelectorMatches_eq_true]

/-- Witness for the amended C4: the foreign-namespace `complexType` is
characterised as a member of the result on the concrete document. -/
theorem findTypeDefinition_spec_witness :
    foreignComplexType ∈ xsd.findTypeDefinition foreignDocument "T" :=
  ((findTypeDefinition_spec foreignDocument "T").1 foreignComplexType).mpr
    ⟨List.Mem.tail _ (List.Mem.head _), Or.inl rfl, rfl⟩

end FindTypeDefinitionClaim

section RestrictionClaims

/-- C5: `getRestrictedType` returns null when the node has no direct
`xs:restriction` child; and when the first `xs:restriction` child (after
a prefix of non-restriction children) is `e`, its result equals
`getTypeFromNodeAttr e "base"`. -/
theorem getRestrictedType_spec (node : Element) :
    ((∀ c ∈ node.children,
        ¬(c.namespaceURI = some xsd.xs ∧ c.localName = "restriction")) →
      xsd.getRestrictedType node = none) ∧
    (∀ e pre post, node.children = pre ++ e :: post →
      e.namespaceURI = some xsd.xs → e.localName = "restriction" →
      (∀ c ∈ pre,
        ¬(c.namespaceURI = some xsd.xs ∧ c.localName = "restriction")) →
      xsd.getRestrictedType node = xsd.getTypeFromNodeAttr e "base" none) := by
  constructor
  · intro h
    have hfind : node.children.find? xsd.isRestriction = none := by
      rw [List.find?_eq_none]
      intro c hc hel
      exact h c hc ((isRestriction_eq_true c).mp hel)
    simp [xsd.getRestrictedType, hfind]
  · intro e pre post hsplit hns hln hpre
    have hfind : node.children.find? xsd.isRestriction = some e := by
      rw [hsplit]
      refine find_eq_some_of_split xsd.isRestriction e post
        ((isRestriction_eq_true e).mpr ⟨hns, hln⟩) pre ?_
      intro c hc
      by_contra hne
      exact hpre c hc
        ((isRestriction_eq_true c).mp (Bool.not_eq_false _ ▸ Bool.of_not_eq_false hne))
    simp [xsd.getRestrictedType, hfind]

/-- A `restriction` child with a `base` attribute. -/
def restrictionChild : Element :=
  .mk (some xsd.xs) "restriction" [("base", "xs:string")] []
    [("xs", "http://www.w3.org/2001/XMLSchema")]
    [.mk (some xsd.xs) "maxLength" [("value", "10")] [] [] []]

/-- An annotation child that is not a restriction. -/
def annotationChild : Element :=
  .mk (some xsd.xs) "annotation" [] [] [] []

/-- A `simpleType` node with an annotation followed by a restriction. -/
def restrictedSimpleType : Element :=
  .mk (some xsd.xs) "simpleType" [("name", "shortString")] [] []
    [annotationChild, restrictionChild]

/-- A `simpleType` node with no restriction child at all. -/
def unrestrictedSimpleType : Element :=
  .mk (some xsd.xs) "simpleType" [("name", "plain")] [] [] [annotationChild]

/-- Witness for C5 on concrete nodes: no restriction child gives null,
and the restriction's `base` is resolved via `getTypeFromNodeAttr`. -/
theorem getRestrictedType_spec_witness :
    xsd.getRestrictedType unrestrictedSimpleType = none ∧
    xsd.getRestrictedType restrictedSimpleType =
      xsd.getTypeFromNodeAttr restrictionChild "base" none :=
  ⟨(getRestrictedType_spec unrestrictedSimpleType).1 (by decide),
   (getRestrictedType_spec restrictedSimpleType).2 restrictionChild
     [annotationChild] [] rfl rfl rfl (by decide)⟩

/-- C6: on a node whose first `xs:restriction` child is `e` (after a
prefix of non-restriction children), `findRestrictingFacets` returns all
of `e`'s children in document order; on a node with no `xs:restriction`
child it fails — the JS code dereferences `undefined`, modelled by
`none`. -/
theorem findRestrictingFacets_spec (node : Element) :
    (∀ e pre post, node.children = pre ++ e :: post →
      e.namespaceURI = some xsd.xs → e.localName = "restriction" →
      (∀ c ∈ pre,
        ¬(c.namespaceURI = some xsd.xs ∧ c.localName = "restriction")) →
      xsd.findRestrictingFacets node = some e.children) ∧
    ((∀ c ∈ node.children,
        ¬(c.namespaceURI = some xsd.xs ∧ c.localName = "restriction")) →
      xsd.findRestrictingFacets node = none) := by
  constructor
  · intro e pre post hsplit hns hln hpre
    have hfind : node.children.find? xsd.isRestriction = some e := by
      rw [hsplit]
      refine find_eq_some_of_split xsd.isRestriction e post
        ((isRestriction_eq_true e).mpr ⟨hns, hln⟩) pre ?_
      intro c hc
      by_contra hne
      exact hpre c hc
        ((isRestriction_eq_true c).mp (Bool.not_eq_false _ ▸ Bool.of_not_eq_false hne))
    simp [xsd.findRestrictingFacets, hfind]
  · intro h
    have hfind : node.children.find? xsd.isRestriction = none := by
      rw [List.find?_eq_none]
      intro c hc hel
      exact h c hc ((isRestriction_eq_true c).mp hel)
    simp [xsd.findRestrictingFacets, hfind]

/-- Second copy of the restricted node, private to the C6 witness. -/
def facetsNodeWith : Element :=
  .mk (some xsd.xs) "simpleType" [("name", "s1")] [] []
    [annotationChild, restrictionChild]

/-- Second copy of the unrestricted node, private to the C6 witness. -/
def facetsNodeWithout : Element :=
  .mk (some xsd.xs) "simpleType" [("name", "s2")] [] [] [annotationChild]

/-- Witness for C6 on concrete nodes: the facet list of the restriction
child is returned, and the missing-restriction case fails. -/
theorem findRestrictingFacets_spec_witness :
    xsd.findRestrictingFacets facetsNodeWith = some restrictionChild.children ∧
    xsd.findRestrictingFacets facetsNodeWithout = none :=
  ⟨(findRestrictingFacets_spec facetsNodeWith).1 restrictionChild
     [annotationChild] [] rfl rfl rfl (by decide),
   (findRestrictingFacets_spec facetsNodeWithout).2 (by decide)⟩

/-- C9: whenever `getRestrictedType` returns a non-null result, both it
and `findRestrictingFacets` select the same element — the first direct
`xs:restriction` child — so `findRestrictingFacets` does not throw and
returns that child's children, while `getRestrictedType` resolves that
child's `base` attribute. -/
theorem restriction_agreement (node : Element)
    (h : xsd.getRestrictedType node ≠ none) :
    ∃ e, node.children.find? xsd.isRestriction = some e ∧
      e ∈ node.children ∧
      e.namespaceURI = some xsd.xs ∧ e.localName = "restriction" ∧
      (∃ pre post, node.children = pre ++ e :: post ∧
        ∀ c ∈ pre,
          ¬(c.namespaceURI = some xsd.xs ∧ c.localName = "restriction")) ∧
      xsd.findRestrictingFacets node = some e.children ∧
      xsd.getRestrictedType node = xsd.getTypeFromNodeAttr e "base" none := by
  rcases hfind : node.children.find? xsd.isRestriction with _ | e
  · exact absurd (by simp [xsd.getRestrictedType, hfind]) h
  · obtain ⟨pre, post, hsplit, hpe, hpre⟩ :=
      find_eq_some_split xsd.isRestriction _ e hfind
    obtain ⟨hns, hln⟩ := (isRestriction_eq_true e).mp hpe
    refine ⟨e, rfl, ?_, hns, hln, ⟨pre, post, hsplit, ?_⟩, ?_, ?_⟩
    · rw [hsplit]; exact List.mem_append_right pre (List.mem_cons_self e post)
    · intro c hc hcontra
      have := (isRestriction_eq_true c).mpr hcontra
      rw [hpre c hc] at this
      cases this
    · simp [xsd.findRestrictingFacets, hfind]
    · simp [xsd.getRestrictedType, hfind]

/-- Third copy of the restricted node, private to the C9 witness. -/
def agreementNode : Element :=
  .mk (some xsd.xs) "simpleType" [("name", "s3")] [] []
    [annotationChild, restrictionChild]

/-- Witness for C9: on the concrete node with a restriction whose base
resolves, `findRestrictingFacets` does not fail. -/
theorem restriction_agreement_witness :
    xsd.findRestrictingFacets agreementNode ≠ none := by
  obtain ⟨e, -, -, -, -, -, hf, -⟩ := restriction_agreement agreementNode (by decide)
  simp [hf]

end RestrictionClaims

section DeterminismClaim

/-- C10: every operation of the module is deterministic — two calls with
identical inputs on an unmodified document return structurally equal
results.  In the embedding every operation is a pure function of its
arguments (no hidden state exists), so equal inputs give equal outputs
definitionally. -/
theorem xsd_deterministic (d : Document) (nm t ta : String) (ns : Option String)
    (node : Element) :
    xsd.findElement d nm = xsd.findElement d nm ∧
    xsd.findTypeDefinition d t = xsd.findTypeDefinition d t ∧
    xsd.getTypeFromNodeAttr node ta ns = xsd.getTypeFromNodeAttr node ta ns ∧
    xsd.getRestrictedType node = xsd.getRestrictedType node ∧
    xsd.findRestrictingFacets node = xsd.findRestrictingFacets node ∧
    xsd.parseMinMaxOccurs node = xsd.parseMinMaxOccurs node :=
  ⟨rfl, rfl, rfl, rfl, rfl, rfl⟩

end DeterminismClaim
